import Mathlib

/-!
Shallow embedding of the image-retention core of the `esp32-camserver`
repository (`src/s3_helper.py` and the `/upload` route of `src/app.py`),
together with theorems checking the retention/listing claims of the
specification against it.

Modelling conventions:
- A stored object (`S3Obj`) carries its key, its size in bytes and its
  `LastModified` timestamp (modelled as a natural number; only its order
  matters).
- The remote bucket is a list of objects kept in S3 key order; a
  `list_objects_v2` call returns at most one page of objects matching the
  requested key prefix, taken from the front of that order.  The page size
  is the backend's operational constant `pageCap` (1000 for real S3), an
  environment parameter, further capped by an explicit `MaxKeys` argument
  when the caller passes one (`list_camera_images` passes `MaxKeys=100`).
- Remote failures (`botocore.ClientError`) are modelled by oracle fields of
  the environment `S3Env`: `listFails`, `putFails`, per-key `deleteFails`
  and `presignFails`.  `clientOk` models whether the module-level
  `s3_client` initialised (is not `None`).
- `MAX_STORAGE_GB` from `config.py` is modelled as a natural number of
  gigabytes (`maxStorageGB`); the code multiplies it by `1024**3`.
- Timestamps formatted by `strftime` are passed in as an abstract string
  `tsStr`; the store-assigned `LastModified` of a put is the abstract
  instant `now`.
-/

/-- One stored snapshot as the S3 listing reports it: `Key`, `Size`,
`LastModified`. -/
structure S3Obj where
  key : String
  size : Nat
  lastModified : Nat
  deriving Repr, DecidableEq

/-- The remote bucket: the list of stored objects, in S3 key order. -/
abbrev Bucket := List S3Obj

/-- Environment of the `s3_helper` module: client initialisation, the
backend's page-size constant, the failure oracles for each remote call, and
the configured storage budget (gigabytes). -/
structure S3Env where
  clientOk : Bool
  pageCap : Nat
  listFails : Bool
  putFails : Bool
  deleteFails : String → Bool
  presignFails : String → Bool
  maxStorageGB : Nat

/-- Key-prefix match, as S3 applies the `Prefix` argument of
`list_objects_v2` (byte-wise prefix of the key). -/
def keyMatches (pre : String) (k : String) : Bool :=
  pre.data.isPrefixOf k.data

/-- Model of one `s3_client.list_objects_v2` call: the first page of objects
whose key matches `pre`, at most `env.pageCap` of them (and at most
`maxKeys` when the caller passes `MaxKeys`).  No continuation token is
followed by this single call. -/
def listObjectsV2 (env : S3Env) (bucket : Bucket) (pre : String)
    (maxKeys : Option Nat) : List S3Obj :=
  let matching := bucket.filter (fun o => keyMatches pre o.key)
  match maxKeys with
  | none => matching.take env.pageCap
  | some k => matching.take (min k env.pageCap)

/-- Total `Size` of a list of objects (the `sum(obj['Size'] ...)` of the
code). -/
def totalSize (os : List S3Obj) : Nat :=
  (os.map (fun o => o.size)).sum

/-- The byte budget `max_size_bytes = MAX_STORAGE_GB * 1024 * 1024 * 1024`. -/
def maxSizeBytes (gb : Nat) : Nat :=
  gb * 1024 * 1024 * 1024

/-- Stable insertion used to model Python's stable `sorted(..., key=f)`:
`x` is placed before the first element `y` with `before x y`. -/
def insertBy (before : S3Obj → S3Obj → Bool) (x : S3Obj) :
    List S3Obj → List S3Obj
  | [] => [x]
  | y :: ys => if before x y then x :: y :: ys else y :: insertBy before x ys

/-- Stable sort by an insertion-position predicate; with
`before x y = (f x ≤ f y)` this is Python's ascending
`sorted(xs, key=f)`, with `before x y = (f y ≤ f x)` it is
`sorted(xs, key=f, reverse=True)`. -/
def sortBy (before : S3Obj → S3Obj → Bool) : List S3Obj → List S3Obj
  | [] => []
  | x :: xs => insertBy before x (sortBy before xs)

/-- Ascending sort on `LastModified` (oldest first), as in
`cleanup_storage`. -/
def sortAscLM (os : List S3Obj) : List S3Obj :=
  sortBy (fun a b => a.lastModified ≤ b.lastModified) os

/-- Descending sort on `LastModified` (newest first), as in
`list_camera_images` (`reverse=True`). -/
def sortDescLM (os : List S3Obj) : List S3Obj :=
  sortBy (fun a b => b.lastModified ≤ a.lastModified) os

/-- Embedding of `check_storage_limit(new_file_size_bytes)`: lists the whole
bucket (single call, no prefix), sums the sizes and returns whether the new
file still fits.  Returns `true` (admit) when the client is missing or the
list call raises `ClientError`. -/
def check_storage_limit (env : S3Env) (bucket : Bucket)
    (newFileSizeBytes : Nat) : Bool :=
  if !env.clientOk then true
  else if env.listFails then true
  else
    let objs := listObjectsV2 env bucket "" none
    let totalSizeBytes := totalSize objs
    decide (totalSizeBytes + newFileSizeBytes ≤ maxSizeBytes env.maxStorageGB)

/-- The `for obj in objects: if current <= target: break; to_delete.append`
loop of `cleanup_storage`: the oldest-first objects chosen for deletion.
`target` may be negative in the source (integer arithmetic), hence `Int`. -/
def selectEvict (target : Int) (current : Int) : List S3Obj → List S3Obj
  | [] => []
  | o :: os =>
    if current ≤ target then []
    else o :: selectEvict target (current - (o.size : Int)) os

/-- Effect of `s3_client.delete_object(Key=k)` on the bucket: the object with
that key is removed (idempotent on absent keys). -/
def deleteKey (k : String) (b : Bucket) : Bucket :=
  b.filter (fun o => o.key != k)

/-- Sequential `delete_object` calls of the cleanup loop under the failure
oracle.  Returns the resulting bucket, the keys for which a delete call was
issued (in order), and the key whose delete raised `ClientError`, if any:
the source performs the loop inside one `try`, so the first failing delete
aborts the remaining iterations. -/
def runDeletes (env : S3Env) : Bucket → List S3Obj →
    Bucket × List String × Option String
  | b, [] => (b, [], none)
  | b, o :: os =>
    if env.deleteFails o.key then (b, [o.key], some o.key)
    else
      let r := runDeletes env (deleteKey o.key b) os
      (r.1, o.key :: r.2.1, r.2.2)

/-- Embedding of `cleanup_storage(new_file_size_bytes)`: lists the whole
bucket (single unprefixed call), sorts ascending by `LastModified`, selects
the oldest objects until the running total is at or below
`max_size_bytes - new_file_size_bytes`, and deletes them one at a time.
Result: the bucket afterwards, the keys whose deletion was attempted, and
the first delete failure (which aborts the loop), if any.  Missing client,
a failed list call, or an empty listing leave the bucket unchanged. -/
def cleanup_storage (env : S3Env) (bucket : Bucket)
    (newFileSizeBytes : Nat) : Bucket × List String × Option String :=
  if !env.clientOk then (bucket, [], none)
  else if env.listFails then (bucket, [], none)
  else
    let objs := listObjectsV2 env bucket "" none
    if objs.isEmpty then (bucket, [], none)
    else
      let objsSorted := sortAscLM objs
      let totalSizeBytes := totalSize objsSorted
      let targetSizeBytes : Int :=
        (maxSizeBytes env.maxStorageGB : Int) - (newFileSizeBytes : Int)
      let toDelete := selectEvict targetSizeBytes (totalSizeBytes : Int) objsSorted
      runDeletes env bucket toDelete

/-- The eviction pass exactly as `upload_to_s3` performs it (lines 37-40 of
`s3_helper.py`): run `check_storage_limit` for the incoming size and, only
when it reports the budget exceeded, run `cleanup_storage`. -/
def enforce_budget (env : S3Env) (bucket : Bucket) (s : Nat) :
    Bucket × List String × Option String :=
  if check_storage_limit env bucket s then (bucket, [], none)
  else cleanup_storage env bucket s

/-- Calls `upload_to_s3` issues against the store, in order (used to state
the pre-check/post-check ordering claims). -/
inductive S3Op where
  | deleteOp (k : String)
  | putOp (k : String)
  deriving Repr, DecidableEq

/-- Key-order insertion of a freshly put object into the bucket (the bucket
list is kept in S3 key order). -/
def insertByKey (x : S3Obj) : Bucket → Bucket
  | [] => [x]
  | y :: ys => if x.key ≤ y.key then x :: y :: ys else y :: insertByKey x ys

/-- Effect of a successful `s3_client.put_object(Key=k, Body=content)`:
overwrite semantics (an existing object under the same key is replaced) and
a fresh store-assigned `LastModified` of `now`. -/
def putObject (k : String) (sz : Nat) (now : Nat) (b : Bucket) : Bucket :=
  insertByKey ⟨k, sz, now⟩ (deleteKey k b)

/-- Embedding of `upload_to_s3(file_content, filename)`.  Returns the
boolean result of the source function, the bucket afterwards, and the trace
of `delete_object` / `put_object` calls issued, in order.  The source first
runs `check_storage_limit`, runs `cleanup_storage` when that fails (both
swallow their own `ClientError`s), and then calls `put_object`
unconditionally; only a `ClientError` of the put itself makes the function
return `False`. -/
def upload_to_s3 (env : S3Env) (now : Nat) (bucket : Bucket)
    (fileContent : List Nat) (filename : String) :
    Bool × Bucket × List S3Op :=
  if !env.clientOk then (false, bucket, [])
  else
    let fileSize := fileContent.length
    let e := enforce_budget env bucket fileSize
    let cleaned := (e.1, e.2.1)
    let ops := cleaned.2.map S3Op.deleteOp ++ [S3Op.putOp filename]
    if env.putFails then (false, cleaned.1, ops)
    else (true, putObject filename fileSize now cleaned.1, ops)

/-- Embedding of `get_presigned_url(filename, expiration=3600)`: `none` when
the client is missing or the presign call raises `ClientError`, otherwise a
deterministic URL string for the key. -/
def get_presigned_url (env : S3Env) (filename : String)
    (expiration : Nat := 3600) : Option String :=
  if !env.clientOk then none
  else if env.presignFails filename then none
  else some ("https://s3.presigned/" ++ filename ++ "?expires=" ++ toString expiration)

/-- One row of the listing `list_camera_images` returns for display. -/
structure ImageEntry where
  key : String
  url : String
  timestamp : Nat
  size : Nat
  display_order : Nat
  deriving Repr, DecidableEq

/-- The `for i, obj in enumerate(objects[:max_images])` loop of
`list_camera_images`: presign each object; an object whose presign fails is
skipped (its `display_order` index is still consumed). -/
def buildEntries (env : S3Env) : Nat → List S3Obj → List ImageEntry
  | _, [] => []
  | i, o :: os =>
    match get_presigned_url env o.key with
    | some url =>
        ⟨o.key, url, o.lastModified, o.size, i + 1⟩ :: buildEntries env (i + 1) os
    | none => buildEntries env (i + 1) os

/-- Embedding of `list_camera_images(camera_id, max_images=6)`: one
`list_objects_v2` call with `Prefix=f"{camera_id}/"` and `MaxKeys=100` (no
continuation), sort the returned page newest first, keep the first
`max_images`, presign each and skip presign failures.  Returns `[]` when the
client is missing, the list call raises `ClientError`, or the page is
empty. -/
def list_camera_images (env : S3Env) (bucket : Bucket) (cameraId : String)
    (maxImages : Nat := 6) : List ImageEntry :=
  if !env.clientOk then []
  else if env.listFails then []
  else
    let page := listObjectsV2 env bucket (cameraId ++ "/") (some 100)
    if page.isEmpty then []
    else
      let objects := sortDescLM page
      buildEntries env 0 (objects.take maxImages)

/-- Modelled from the spec: `delete_old_images` is imported from
`s3_helper` by `app.py` (line 14) but no definition exists anywhere under
`src/`; only this dangling import remains.  The spec's count-based eviction
(§4.3 `enforce_count`) is therefore modelled from its words: enumerate the
camera's full namespace, sort ascending by recency; if the count is at most
`keep_count` do nothing, else delete the slice `[0, total - keep_count)` of
the ascending list (every object except the newest `keep_count`). -/
def delete_old_images (env : S3Env) (bucket : Bucket) (cameraId : String)
    (keepCount : Nat) : Bucket × List String × Option String :=
  let ns := bucket.filter (fun o => keyMatches (cameraId ++ "/") o.key)
  if ns.length ≤ keepCount then (bucket, [], none)
  else
    let ascending := sortAscLM ns
    let toDelete := ascending.take (ns.length - keepCount)
    runDeletes env bucket toDelete

/-- Camera row of the relational store, restricted to the fields the
`/upload` route reads or writes (`models.py` also stores location fields,
filled from the external IP-geolocation helper and irrelevant here). -/
structure CameraRec where
  camera_id : String
  name : String
  user_id : Nat
  ip_address : Option String
  last_seen : Option Nat
  deriving Repr, DecidableEq

/-- The cameras table. -/
abbrev DB := List CameraRec

/-- The `db.query(Camera).filter(Camera.camera_id == camera_id).first()`
lookup. -/
def findCamera (db : DB) (cameraId : String) : Option CameraRec :=
  db.find? (fun c => c.camera_id == cameraId)

/-- Replace the row for `cameraId` by `r` (the ORM mutates the fetched row
in place; `db.commit()` persists it). -/
def updateCamera (db : DB) (cameraId : String) (r : CameraRec) : DB :=
  db.map (fun c => if c.camera_id == cameraId then r else c)

/-- JSON response of the `/upload` route: status string, message and HTTP
status code. -/
structure UploadResp where
  status : String
  message : String
  httpCode : Nat
  deriving Repr, DecidableEq

/-- Embedding of the `/upload` route (`upload_image` in `app.py`).  Steps of
the source, in order: look the camera up by `camera_id`; if absent, create a
row named `f"Camera {camera_id}"` owned by user id 1 with the client IP; if
present, refresh its stored IP when changed; set `last_seen = now` and
`db.commit()`; then read the file, build the key
`f"{camera_id}/{timestamp}.jpg"` and call `upload_to_s3`; answer 200 on
`True`, a 500 error response on `False`.  No validation of `camera_id` is
performed anywhere on this path.  `tsStr` is the `strftime`-formatted
timestamp; `now` the current instant.  Returns the response, the committed
database and the bucket afterwards. -/
def upload_image (env : S3Env) (db : DB) (bucket : Bucket)
    (cameraId : String) (fileContent : List Nat) (clientIp : Option String)
    (now : Nat) (tsStr : String) : UploadResp × DB × Bucket :=
  let db1 :=
    match findCamera db cameraId with
    | none =>
        db ++ [{ camera_id := cameraId, name := "Camera " ++ cameraId,
                 user_id := 1, ip_address := clientIp, last_seen := none }]
    | some cam =>
        if cam.ip_address != clientIp then
          updateCamera db cameraId { cam with ip_address := clientIp }
        else db
  let db2 :=
    match findCamera db1 cameraId with
    | some cam => updateCamera db1 cameraId { cam with last_seen := some now }
    | none => db1
  let filename := cameraId ++ "/" ++ tsStr ++ ".jpg"
  let up := upload_to_s3 env now bucket fileContent filename
  if up.1 then
    ({ status := "success", message := "Image uploaded", httpCode := 200 },
     db2, up.2.1)
  else
    ({ status := "error", message := "S3 upload failed", httpCode := 500 },
     db2, up.2.1)

/-- An environment with an initialised client and no remote failures, with
the given backend page cap and configured budget in GB. -/
def mkEnv (pageCap gb : Nat) : S3Env :=
  { clientOk := true, pageCap := pageCap, listFails := false,
    putFails := false, deleteFails := fun _ => false,
    presignFails := fun _ => false, maxStorageGB := gb }

/-- Two-digit decimal rendering, for generating keys in lexicographic =
numeric order. -/
def pad2 (n : Nat) : String :=
  (if n < 10 then "0" else "") ++ toString n

/-- A namespace of 101 one-byte objects for camera `c`: keys `c/00` ..
`c/99` (timestamps 0..99) followed by `c/z` (timestamp 100, the newest,
lexicographically last).  One more object than the `MaxKeys=100` cap that
`list_camera_images` passes. -/
def exBucketBig : Bucket :=
  ((List.range 100).map (fun i => { key := "c/" ++ pad2 i, size := 1, lastModified := i })) ++
    [{ key := "c/z", size := 1, lastModified := 100 }]

/-- A three-object bucket, one gigabyte each, whose third object (in key
order) is the globally oldest; used against a backend page cap of 2. -/
def exBucketOverPage : Bucket :=
  [ { key := "a/1.jpg", size := 1024 * 1024 * 1024, lastModified := 1 },
    { key := "b/1.jpg", size := 1024 * 1024 * 1024, lastModified := 2 },
    { key := "c/0.jpg", size := 1024 * 1024 * 1024, lastModified := 0 } ]

/-- A bucket holding a single object of another camera (`other/1.jpg`),
one gigabyte, the oldest object in the store. -/
def exBucketOther : Bucket :=
  [ { key := "other/1.jpg", size := 1024 * 1024 * 1024, lastModified := 0 } ]

/-- Two one-gigabyte objects of two cameras; both become eviction
candidates for a one-gigabyte incoming upload under a 1 GB budget. -/
def exBucketTwo : Bucket :=
  [ { key := "a/1.jpg", size := 1024 * 1024 * 1024, lastModified := 0 },
    { key := "b/1.jpg", size := 1024 * 1024 * 1024, lastModified := 1 } ]

/-- Environment in which deleting `a/1.jpg` raises `ClientError` and
everything else succeeds. -/
def envDeleteAFails : S3Env :=
  { mkEnv 10 1 with deleteFails := fun k => k == "a/1.jpg" }

/-- Environment in which every `put_object` call raises `ClientError`. -/
def envPutFails : S3Env :=
  { mkEnv 10 5 with putFails := true }

/-! ### Supporting lemmas about the embedded operations -/

theorem keyMatches_empty_pre (k : String) : keyMatches "" k = true := by
  simp [keyMatches]

theorem insertBy_perm (before : S3Obj → S3Obj → Bool) (x : S3Obj) :
    ∀ l : List S3Obj, List.Perm (insertBy before x l) (x :: l)
  | [] => List.Perm.refl _
  | y :: ys => by
    unfold insertBy
    by_cases h : before x y = true
    · simp [h]
    · simp only [h, if_neg, Bool.not_eq_true, if_false]
      exact ((insertBy_perm before x ys).cons y).trans (List.Perm.swap x y ys)

theorem sortBy_perm (before : S3Obj → S3Obj → Bool) :
    ∀ l : List S3Obj, List.Perm (sortBy before l) l
  | [] => List.Perm.refl _
  | x :: xs =>
    (insertBy_perm before x (sortBy before xs)).trans
      ((sortBy_perm before xs).cons x)

theorem mem_insertBy {before : S3Obj → S3Obj → Bool} {x z : S3Obj}
    {l : List S3Obj} (h : z ∈ insertBy before x l) : z = x ∨ z ∈ l := by
  have := (insertBy_perm before x l).mem_iff.mp h
  simpa using this

theorem pairwise_insertBy {before : S3Obj → S3Obj → Bool}
    (htot : ∀ a b, before a b = false → before b a = true)
    (htrans : ∀ a b c, before a b = true → before b c = true → before a c = true)
    (x : S3Obj) :
    ∀ l : List S3Obj, l.Pairwise (fun a b => before a b = true) →
      (insertBy before x l).Pairwise (fun a b => before a b = true)
  | [], _ => by simp [insertBy]
  | y :: ys, hl => by
    rcases List.pairwise_cons.mp hl with ⟨hy, hys⟩
    unfold insertBy
    by_cases h : before x y = true
    · simp only [h, if_true]
      refine List.pairwise_cons.mpr ⟨?_, hl⟩
      intro z hz
      rcases List.mem_cons.mp hz with rfl | hz
      · exact h
      · exact htrans x y z h (hy z hz)
    · simp only [h, if_neg, Bool.not_eq_true, if_false]
      refine List.pairwise_cons.mpr ⟨?_, pairwise_insertBy htot htrans x ys hys⟩
      intro z hz
      rcases mem_insertBy hz with rfl | hz
      · exact htot z y (by simpa using h)
      · exact hy z hz

theorem pairwise_sortBy {before : S3Obj → S3Obj → Bool}
    (htot : ∀ a b, before a b = false → before b a = true)
    (htrans : ∀ a b c, before a b = true → before b c = true → before a c = true) :
    ∀ l : List S3Obj, (sortBy before l).Pairwise (fun a b => before a b = true)
  | [] => List.Pairwise.nil
  | x :: xs =>
    pairwise_insertBy htot htrans x (sortBy before xs)
      (pairwise_sortBy htot htrans xs)

theorem sortDescLM_pairwise (l : List S3Obj) :
    (sortDescLM l).Pairwise (fun a b => b.lastModified ≤ a.lastModified) := by
  have h := @pairwise_sortBy (fun a b => decide (b.lastModified ≤ a.lastModified))
    (fun a b hab => by
      simp only [decide_eq_false_iff_not, Nat.not_le] at hab
      exact decide_eq_true_eq.mpr (Nat.le_of_lt hab))
    (fun a b c hab hbc => by
      simp only [decide_eq_true_eq] at hab hbc ⊢
      exact Nat.le_trans hbc hab) l
  refine h.imp ?_
  intro a b hab
  exact decide_eq_true_eq.mp hab

theorem sortAscLM_pairwise (l : List S3Obj) :
    (sortAscLM l).Pairwise (fun a b => a.lastModified ≤ b.lastModified) := by
  have h := @pairwise_sortBy (fun a b => decide (a.lastModified ≤ b.lastModified))
    (fun a b hab => by
      simp only [decide_eq_false_iff_not, Nat.not_le] at hab
      exact decide_eq_true_eq.mpr (Nat.le_of_lt hab))
    (fun a b c hab hbc => by
      simp only [decide_eq_true_eq] at hab hbc ⊢
      exact Nat.le_trans hab hbc) l
  refine h.imp ?_
  intro a b hab
  exact decide_eq_true_eq.mp hab

theorem totalSize_perm {l₁ l₂ : List S3Obj} (h : List.Perm l₁ l₂) :
    totalSize l₁ = totalSize l₂ := by
  simpa [totalSize] using (h.map (fun o => o.size)).sum_eq

theorem totalSize_append (l₁ l₂ : List S3Obj) :
    totalSize (l₁ ++ l₂) = totalSize l₁ + totalSize l₂ := by
  simp [totalSize]

theorem selectEvict_prefix (t : Int) :
    ∀ (c : Int) (os : List S3Obj), (selectEvict t c os) <+: os
  | _, [] => List.prefix_refl _
  | c, o :: os => by
    unfold selectEvict
    by_cases h : c ≤ t
    · simp only [if_pos h]
      exact List.nil_prefix
    · simp only [if_neg h]
      rcases selectEvict_prefix t (c - (o.size : Int)) os with ⟨tail, htail⟩
      exact ⟨tail, by rw [List.cons_append, htail]⟩

theorem selectEvict_total (t : Int) :
    ∀ (os : List S3Obj) (c : Int),
      c - (totalSize (selectEvict t c os) : Int) ≤ t ∨ selectEvict t c os = os
  | [], c => by
    by_cases h : c ≤ t
    · left
      simpa [selectEvict, totalSize] using h
    · right
      rfl
  | o :: os, c => by
    unfold selectEvict
    by_cases h : c ≤ t
    · left
      simp only [if_pos h]
      simp [totalSize]
      omega
    · simp only [if_neg h]
      rcases selectEvict_total t os (c - (o.size : Int)) with hle | hall
      · left
        have : totalSize (o :: selectEvict t (c - (o.size : Int)) os)
            = o.size + totalSize (selectEvict t (c - (o.size : Int)) os) := by
          simp [totalSize]
        rw [this]
        push_cast
        omega
      · right
        rw [hall]

theorem deleteKey_perm_of {d : S3Obj} {b rest : List S3Obj}
    (hperm : List.Perm b (d :: rest))
    (hnd : (b.map (fun o => o.key)).Nodup) :
    List.Perm (deleteKey d.key b) rest := by
  have hndr : ((d :: rest).map (fun o => o.key)).Nodup :=
    (hperm.map (fun o => o.key)).nodup_iff.mp hnd
  simp only [List.map_cons, List.nodup_cons] at hndr
  have hfilter := hperm.filter (fun o => o.key != d.key)
  have hd : (d.key != d.key) = false := by simp
  have hrest : rest.filter (fun o => o.key != d.key) = rest := by
    refine List.filter_eq_self.mpr ?_
    intro o ho
    refine bne_iff_ne.mpr ?_
    intro hEq
    exact hndr.1 (hEq ▸ List.mem_map_of_mem (fun o => o.key) ho)
  unfold deleteKey
  refine hfilter.trans ?_
  simp only [List.filter_cons, hd, if_neg, Bool.false_eq_true, not_false_iff, hrest]
  exact List.Perm.refl _

theorem runDeletes_ok {env : S3Env} (hdel : ∀ k, env.deleteFails k = false) :
    ∀ (td : List S3Obj) (b rest : List S3Obj),
      List.Perm b (td ++ rest) → (b.map (fun o => o.key)).Nodup →
      List.Perm ((runDeletes env b td).1) rest ∧
      (runDeletes env b td).2.1 = td.map (fun o => o.key) ∧
      (runDeletes env b td).2.2 = none
  | [], b, rest, hperm, _ => by
    refine ⟨by simpa using hperm, rfl, rfl⟩
  | o :: os, b, rest, hperm, hnd => by
    have hcons : List.Perm b (o :: (os ++ rest)) := by simpa using hperm
    have hdel' : List.Perm (deleteKey o.key b) (os ++ rest) :=
      deleteKey_perm_of hcons hnd
    have hnd' : ((deleteKey o.key b).map (fun o => o.key)).Nodup := by
      refine (hdel'.map (fun o => o.key)).nodup_iff.mpr ?_
      have := (hcons.map (fun o => o.key)).nodup_iff.mp hnd
      simpa using this.of_cons
    have ih := runDeletes_ok hdel os (deleteKey o.key b) rest hdel' hnd'
    unfold runDeletes
    simp only [hdel o.key, Bool.false_eq_true, if_neg, not_false_iff]
    exact ⟨ih.1, by simp [ih.2.1], ih.2.2⟩

theorem listObjectsV2_all (env : S3Env) (bucket : Bucket)
    (hpage : bucket.length ≤ env.pageCap) :
    listObjectsV2 env bucket "" none = bucket := by
  have hfilter : bucket.filter (fun o => keyMatches "" o.key) = bucket :=
    List.filter_eq_self.mpr (fun o _ => keyMatches_empty_pre o.key)
  simp only [listObjectsV2, hfilter]
  exact List.take_of_length_le hpage

theorem check_storage_limit_eq (env : S3Env) (bucket : Bucket) (s : Nat)
    (hc : env.clientOk = true) (hl : env.listFails = false)
    (hpage : bucket.length ≤ env.pageCap) :
    check_storage_limit env bucket s =
      decide (totalSize bucket + s ≤ maxSizeBytes env.maxStorageGB) := by
  simp only [check_storage_limit, hc, hl, listObjectsV2_all env bucket hpage,
    Bool.not_true, Bool.false_eq_true, if_false, if_neg]

theorem cleanup_storage_eq (env : S3Env) (bucket : Bucket) (s : Nat)
    (hc : env.clientOk = true) (hl : env.listFails = false)
    (hpage : bucket.length ≤ env.pageCap) (hbne : bucket ≠ []) :
    cleanup_storage env bucket s =
      runDeletes env bucket
        (selectEvict ((maxSizeBytes env.maxStorageGB : Int) - (s : Int))
          ((totalSize (sortAscLM bucket) : Int)) (sortAscLM bucket)) := by
  have hie : bucket.isEmpty = false := by
    cases bucket with
    | nil => exact absurd rfl hbne
    | cons x xs => rfl
  simp only [cleanup_storage, hc, hl, listObjectsV2_all env bucket hpage, hie,
    Bool.not_true, Bool.false_eq_true, if_false, if_neg]

theorem cleanup_storage_no_fail (env : S3Env) (bucket : Bucket) (s : Nat)
    (hc : env.clientOk = true) (hl : env.listFails = false)
    (hdel : ∀ k, env.deleteFails k = false)
    (hpage : bucket.length ≤ env.pageCap)
    (hnd : (bucket.map (fun o => o.key)).Nodup) (hbne : bucket ≠ []) :
    List.Perm (cleanup_storage env bucket s).1
      ((sortAscLM bucket).drop
        (selectEvict ((maxSizeBytes env.maxStorageGB : Int) - (s : Int))
          ((totalSize (sortAscLM bucket) : Int)) (sortAscLM bucket)).length) ∧
    (cleanup_storage env bucket s).2.1 =
      (selectEvict ((maxSizeBytes env.maxStorageGB : Int) - (s : Int))
        ((totalSize (sortAscLM bucket) : Int)) (sortAscLM bucket)).map
        (fun o => o.key) ∧
    (cleanup_storage env bucket s).2.2 = none := by
  rw [cleanup_storage_eq env bucket s hc hl hpage hbne]
  have hpre := selectEvict_prefix ((maxSizeBytes env.maxStorageGB : Int) - (s : Int))
    ((totalSize (sortAscLM bucket) : Int)) (sortAscLM bucket)
  have htake := List.prefix_iff_eq_take.mp hpre
  have hsplit : sortAscLM bucket =
      (selectEvict ((maxSizeBytes env.maxStorageGB : Int) - (s : Int))
        ((totalSize (sortAscLM bucket) : Int)) (sortAscLM bucket)) ++
      ((sortAscLM bucket).drop
        (selectEvict ((maxSizeBytes env.maxStorageGB : Int) - (s : Int))
          ((totalSize (sortAscLM bucket) : Int)) (sortAscLM bucket)).length) := by
    conv_lhs => rw [← List.take_append_drop
      ((selectEvict ((maxSizeBytes env.maxStorageGB : Int) - (s : Int))
        ((totalSize (sortAscLM bucket) : Int)) (sortAscLM bucket)).length)
      (sortAscLM bucket)]
    rw [← htake]
  have hperm : List.Perm bucket
      ((selectEvict ((maxSizeBytes env.maxStorageGB : Int) - (s : Int))
        ((totalSize (sortAscLM bucket) : Int)) (sortAscLM bucket)) ++
      ((sortAscLM bucket).drop
        (selectEvict ((maxSizeBytes env.maxStorageGB : Int) - (s : Int))
          ((totalSize (sortAscLM bucket) : Int)) (sortAscLM bucket)).length)) := by
    have h1 : List.Perm bucket (sortAscLM bucket) :=
      (sortBy_perm (fun a b => a.lastModified ≤ b.lastModified) bucket).symm
    rw [hsplit] at h1
    exact h1
  exact runDeletes_ok hdel _ bucket _ hperm hnd

/-- C1. The claim as frozen quantifies over every bucket state; the code
computes both the occupancy check and the eviction set from a single
unpaginated `list_objects_v2` page, so the invariant only holds when the
bucket fits within one backend page.  Amended: for a bucket of at most one
page (with distinct keys), eviction is a no-op when `current_total + s`
fits the budget, the deleted keys are an oldest-first initial segment of
the ascending recency order, no delete fails, and afterwards the stored
total plus `s` is at most `max_total_bytes` (given `s` itself is within
budget). -/
theorem spec_c1_size_eviction_invariant (env : S3Env) (bucket : Bucket) (s : Nat)
    (hc : env.clientOk = true) (hl : env.listFails = false)
    (hdel : ∀ k, env.deleteFails k = false)
    (hpage : bucket.length ≤ env.pageCap)
    (hnd : (bucket.map (fun o => o.key)).Nodup)
    (hs : s ≤ maxSizeBytes env.maxStorageGB) :
    (totalSize bucket + s ≤ maxSizeBytes env.maxStorageGB →
      enforce_budget env bucket s = (bucket, [], none)) ∧
    totalSize (enforce_budget env bucket s).1 + s ≤ maxSizeBytes env.maxStorageGB ∧
    (∃ n, (enforce_budget env bucket s).2.1 =
      ((sortAscLM bucket).take n).map (fun o => o.key)) ∧
    (enforce_budget env bucket s).2.2 = none := by
  have hcheck := check_storage_limit_eq env bucket s hc hl hpage
  by_cases hfit : totalSize bucket + s ≤ maxSizeBytes env.maxStorageGB
  · have hb : check_storage_limit env bucket s = true := by
      rw [hcheck]; exact decide_eq_true hfit
    have henf : enforce_budget env bucket s = (bucket, [], none) := by
      simp [enforce_budget, hb]
    refine ⟨fun _ => henf, ?_, ?_, ?_⟩
    · rw [henf]; exact hfit
    · exact ⟨0, by simp [henf]⟩
    · simp [henf]
  · have hb : check_storage_limit env bucket s = false := by
      rw [hcheck]; exact decide_eq_false hfit
    have henf : enforce_budget env bucket s = cleanup_storage env bucket s := by
      simp [enforce_budget, hb]
    have hbne : bucket ≠ [] := by
      intro hnil
      apply hfit
      rw [hnil]
      simpa [totalSize] using hs
    obtain ⟨hpermres, hkeys, herr⟩ :=
      cleanup_storage_no_fail env bucket s hc hl hdel hpage hnd hbne
    have hsortperm := sortBy_perm (fun a b => a.lastModified ≤ b.lastModified) bucket
    have htotsort : totalSize (sortAscLM bucket) = totalSize bucket :=
      totalSize_perm hsortperm
    refine ⟨fun h => absurd h hfit, ?_, ?_, by rw [henf]; exact herr⟩
    · rw [henf]
      have hres : totalSize (cleanup_storage env bucket s).1 =
          totalSize ((sortAscLM bucket).drop
            (selectEvict ((maxSizeBytes env.maxStorageGB : Int) - (s : Int))
              ((totalSize (sortAscLM bucket) : Int)) (sortAscLM bucket)).length) :=
        totalSize_perm hpermres
      rcases selectEvict_total ((maxSizeBytes env.maxStorageGB : Int) - (s : Int))
        (sortAscLM bucket) ((totalSize (sortAscLM bucket) : Int)) with hle | hall
      · have hpre := selectEvict_prefix ((maxSizeBytes env.maxStorageGB : Int) - (s : Int))
          ((totalSize (sortAscLM bucket) : Int)) (sortAscLM bucket)
        have htake := List.prefix_iff_eq_take.mp hpre
        have hsum : totalSize (sortAscLM bucket) =
            totalSize (selectEvict ((maxSizeBytes env.maxStorageGB : Int) - (s : Int))
              ((totalSize (sortAscLM bucket) : Int)) (sortAscLM bucket)) +
            totalSize ((sortAscLM bucket).drop
              (selectEvict ((maxSizeBytes env.maxStorageGB : Int) - (s : Int))
                ((totalSize (sortAscLM bucket) : Int)) (sortAscLM bucket)).length) := by
          conv_lhs => rw [← List.take_append_drop
            ((selectEvict ((maxSizeBytes env.maxStorageGB : Int) - (s : Int))
              ((totalSize (sortAscLM bucket) : Int)) (sortAscLM bucket)).length)
            (sortAscLM bucket)]
          rw [← htake, totalSize_append]
        rw [hres]
        omega
      · rw [hres, hall, List.drop_length]
        simpa [totalSize] using hs
    · rw [henf, hkeys]
      exact ⟨(selectEvict ((maxSizeBytes env.maxStorageGB : Int) - (s : Int))
          ((totalSize (sortAscLM bucket) : Int)) (sortAscLM bucket)).length,
        by rw [← List.prefix_iff_eq_take.mp ( selectEvict_prefix _ _ _)]⟩

theorem spec_c1_size_eviction_invariant_witness :
    totalSize (enforce_budget (mkEnv 10 1)
      [{ key := "c/a.jpg", size := 5, lastModified := 0 },
       { key := "c/b.jpg", size := 3, lastModified := 1 }] 7).1 + 7 ≤
      maxSizeBytes 1 :=
  (spec_c1_size_eviction_invariant (mkEnv 10 1)
    [{ key := "c/a.jpg", size := 5, lastModified := 0 },
     { key := "c/b.jpg", size := 3, lastModified := 1 }] 7
    rfl rfl (fun _ => rfl) (by decide) (by decide) (by decide)).2.1

/-- C1, counterexample to the claim as frozen: a three-object bucket against
a backend page of two.  The third object never appears in the single listing
page, so eviction deletes the two listed objects yet the store still holds
a gigabyte more than the check believed: no delete failed, the incoming
size is within budget, and still the remaining total plus the incoming size
exceeds the budget. -/
theorem spec_c1_size_eviction_counterexample :
    (enforce_budget (mkEnv 2 1) exBucketOverPage (1024 * 1024 * 1024)).2.2 = none ∧
    1024 * 1024 * 1024 ≤ maxSizeBytes 1 ∧
    ¬ (totalSize (enforce_budget (mkEnv 2 1) exBucketOverPage (1024 * 1024 * 1024)).1 +
        1024 * 1024 * 1024 ≤ maxSizeBytes 1) := by
  decide

theorem runDeletes_frame (env : S3Env) :
    ∀ (td : List S3Obj) (b : Bucket) (o : S3Obj), o ∈ b →
      o.key ∉ (runDeletes env b td).2.1 → o ∈ (runDeletes env b td).1
  | [], _, _, ho, _ => ho
  | d :: ds, b, o, ho, hno => by
    unfold runDeletes
    by_cases hf : env.deleteFails d.key = true
    · simp only [hf, if_pos]
      exact ho
    · simp only [hf, if_neg, Bool.not_eq_true, if_false]
      unfold runDeletes at hno
      simp only [hf, if_neg, Bool.not_eq_true, if_false, List.mem_cons] at hno
      push_neg at hno
      refine runDeletes_frame env ds (deleteKey d.key b) o ?_ hno.2
      refine List.mem_filter.mpr ⟨ho, ?_⟩
      exact bne_iff_ne.mpr hno.1

theorem cleanup_storage_cases (env : S3Env) (b : Bucket) (s : Nat) :
    cleanup_storage env b s = (b, [], none) ∨
    ∃ td, cleanup_storage env b s = runDeletes env b td := by
  unfold cleanup_storage
  by_cases h1 : env.clientOk
  · by_cases h2 : env.listFails
    · left
      simp [h1, h2]
    · by_cases h3 : (listObjectsV2 env b "" none).isEmpty
      · left
        simp [h1, h2, h3]
      · right
        have h2f : env.listFails = false := by simpa using h2
        have h3f : (listObjectsV2 env b "" none).isEmpty = false := by simpa using h3
        simp only [h1, h2f, h3f, Bool.not_true, Bool.false_eq_true, if_false, if_neg,
          not_false_iff]
        exact ⟨_, rfl⟩
  · left
    simp [h1]

theorem enforce_budget_cases (env : S3Env) (b : Bucket) (s : Nat) :
    enforce_budget env b s = (b, [], none) ∨
    ∃ td, enforce_budget env b s = runDeletes env b td := by
  unfold enforce_budget
  by_cases h : check_storage_limit env b s
  · left
    simp [h]
  · simp only [h, Bool.false_eq_true, if_false, if_neg, not_false_iff]
    exact cleanup_storage_cases env b s

/-- C2, amended: the eviction pass lists the whole bucket with no camera
prefix, so its deletion candidates may belong to any camera (see the
counterexample); what does hold is the frame property relative to the
actually attempted deletions: every stored object whose key is not among
the keys the pass attempted to delete is still stored afterwards. -/
theorem spec_c2_eviction_frame (env : S3Env) (bucket : Bucket) (s : Nat)
    (o : S3Obj) (ho : o ∈ bucket)
    (hno : o.key ∉ (enforce_budget env bucket s).2.1) :
    o ∈ (enforce_budget env bucket s).1 := by
  rcases enforce_budget_cases env bucket s with h | ⟨td, h⟩
  · rw [h]
    exact ho
  · rw [h]
    rw [h] at hno
    exact runDeletes_frame env td bucket o ho hno

theorem spec_c2_eviction_frame_witness :
    ({ key := "c/keep.jpg", size := 1, lastModified := 5 } : S3Obj) ∈
      (enforce_budget (mkEnv 10 5)
        [{ key := "c/keep.jpg", size := 1, lastModified := 5 }] 1).1 :=
  spec_c2_eviction_frame (mkEnv 10 5)
    [{ key := "c/keep.jpg", size := 1, lastModified := 5 }] 1
    { key := "c/keep.jpg", size := 1, lastModified := 5 }
    (by decide) (by decide)

/-- C2, counterexample to the claim as frozen: an upload for camera `c`
needs space; the enforcement pass lists without any prefix and deletes the
(globally oldest) object `other/1.jpg`, which is not in camera `c`'s
namespace, and completes without failure. -/
theorem spec_c2_eviction_crosses_namespaces :
    ({ key := "other/1.jpg", size := 1024 * 1024 * 1024, lastModified := 0 } : S3Obj) ∈
      exBucketOther ∧
    keyMatches "c/" "other/1.jpg" = false ∧
    ({ key := "other/1.jpg", size := 1024 * 1024 * 1024, lastModified := 0 } : S3Obj) ∉
      (enforce_budget (mkEnv 10 1) exBucketOther (1024 * 1024 * 1024)).1 ∧
    (enforce_budget (mkEnv 10 1) exBucketOther (1024 * 1024 * 1024)).2.2 = none := by
  decide

/-- C3, amended: the source performs a pre-check, not the post-check the
spec mandates.  What holds: for every upload with an initialised client,
the trace of store calls is some (possibly empty) sequence of eviction
deletes followed by exactly one put — every eviction delete precedes the
put — the put is always issued, and the result of the upload equals the
negation of the put failure alone, so neither a budget violation nor an
eviction failure fails the upload. -/
theorem spec_c3_precheck_order (env : S3Env) (now : Nat) (bucket : Bucket)
    (fileContent : List Nat) (filename : String)
    (hc : env.clientOk = true) :
    (∃ ks : List String,
      (upload_to_s3 env now bucket fileContent filename).2.2 =
        ks.map S3Op.deleteOp ++ [S3Op.putOp filename]) ∧
    (upload_to_s3 env now bucket fileContent filename).1 = !env.putFails := by
  unfold upload_to_s3
  simp only [hc, Bool.not_true, Bool.false_eq_true, if_false, if_neg, not_false_iff]
  by_cases hp : env.putFails
  · simp only [hp, if_pos, Bool.not_true]
    exact ⟨⟨(enforce_budget env bucket fileContent.length).2.1, rfl⟩, trivial⟩
  · have hp' : env.putFails = false := by simpa using hp
    simp only [hp', Bool.false_eq_true, if_false, if_neg, not_false_iff, Bool.not_false]
    exact ⟨⟨(enforce_budget env bucket fileContent.length).2.1, rfl⟩, trivial⟩

theorem spec_c3_precheck_order_witness :
    (∃ ks : List String,
      (upload_to_s3 (mkEnv 10 1) 5 exBucketOther [0, 0] "c/x.jpg").2.2 =
        ks.map S3Op.deleteOp ++ [S3Op.putOp "c/x.jpg"]) ∧
    (upload_to_s3 (mkEnv 10 1) 5 exBucketOther [0, 0] "c/x.jpg").1 =
      !(mkEnv 10 1).putFails :=
  spec_c3_precheck_order (mkEnv 10 1) 5 exBucketOther [0, 0] "c/x.jpg" rfl

/-- C3, counterexample to the claim as frozen: a gigabyte-sized object is
stored and the budget is one gigabyte, so the two-byte upload triggers
eviction.  The issued call sequence is delete first, put second — an
eviction delete is issued before the put — contradicting the claimed
post-check ordering. -/
theorem spec_c3_delete_issued_before_put :
    (upload_to_s3 (mkEnv 10 1) 5 exBucketOther [0, 0] "c/x.jpg").2.2 =
      [S3Op.deleteOp "other/1.jpg", S3Op.putOp "c/x.jpg"] ∧
    (upload_to_s3 (mkEnv 10 1) 5 exBucketOther [0, 0] "c/x.jpg").1 = true := by
  decide

theorem listObjectsV2_display_eq (env : S3Env) (bucket : Bucket) (pre : String)
    (hfit : (bucket.filter (fun o => keyMatches pre o.key)).length ≤
      min 100 env.pageCap) :
    listObjectsV2 env bucket pre (some 100) =
      bucket.filter (fun o => keyMatches pre o.key) := by
  simp only [listObjectsV2]
  exact List.take_of_length_le hfit

/-- C4, amended: no call site follows continuation tokens; each listing is
one `list_objects_v2` call.  The listing is therefore complete exactly when
the namespace fits in a single page: for display, when the camera's
namespace holds at most `min 100 pageCap` objects (the code passes
`MaxKeys=100`); for eviction decisions, when the whole bucket holds at most
one backend page.  Under those bounds the single call returns every object;
beyond them objects are silently missing (see the counterexample). -/
theorem spec_c4_single_page_listing (env : S3Env) (bucket : Bucket)
    (cam : String)
    (hfit : (bucket.filter (fun o => keyMatches (cam ++ "/") o.key)).length ≤
      min 100 env.pageCap)
    (hall : bucket.length ≤ env.pageCap) :
    listObjectsV2 env bucket (cam ++ "/") (some 100) =
      bucket.filter (fun o => keyMatches (cam ++ "/") o.key) ∧
    listObjectsV2 env bucket "" none = bucket :=
  ⟨listObjectsV2_display_eq env bucket (cam ++ "/") hfit,
   listObjectsV2_all env bucket hall⟩

theorem spec_c4_single_page_listing_witness :
    listObjectsV2 (mkEnv 1000 5)
      [{ key := "c/1.jpg", size := 4, lastModified := 0 }] ("c" ++ "/") (some 100) =
      ([{ key := "c/1.jpg", size := 4, lastModified := 0 }] : Bucket).filter
        (fun o => keyMatches ("c" ++ "/") o.key) ∧
    listObjectsV2 (mkEnv 1000 5)
      [{ key := "c/1.jpg", size := 4, lastModified := 0 }] "" none =
      [{ key := "c/1.jpg", size := 4, lastModified := 0 }] :=
  spec_c4_single_page_listing (mkEnv 1000 5)
    [{ key := "c/1.jpg", size := 4, lastModified := 0 }] "c"
    (by decide) (by decide)

set_option maxRecDepth 10000 in
/-- C4, counterexample to the claim as frozen: a camera namespace of 101
objects against the real backend page size of 1000.  The display listing
passes `MaxKeys=100` and never follows the continuation token, so the
lexicographically last object `c/z` — which is also the newest — is in the
namespace but absent from the page the code uses and from every entry the
display returns. -/
theorem spec_c4_listing_truncated :
    "c/z" ∈ (exBucketBig.filter (fun o => keyMatches "c/" o.key)).map
      (fun o => o.key) ∧
    "c/z" ∉ (listObjectsV2 (mkEnv 1000 5) exBucketBig "c/" (some 100)).map
      (fun o => o.key) ∧
    (list_camera_images (mkEnv 1000 5) exBucketBig "c").all
      (fun e => e.key != "c/z") = true := by
  decide

theorem buildEntries_map_key_of_ok (env : S3Env) (hc : env.clientOk = true)
    (hpre : ∀ k, env.presignFails k = false) :
    ∀ (i : Nat) (os : List S3Obj),
      (buildEntries env i os).map (fun e => e.key) = os.map (fun o => o.key)
  | _, [] => rfl
  | i, o :: os => by
    have hurl : get_presigned_url env o.key = some
        ("https://s3.presigned/" ++ o.key ++ "?expires=" ++ toString 3600) := by
      simp [get_presigned_url, hc, hpre o.key]
    simp only [buildEntries, hurl, List.map_cons]
    rw [buildEntries_map_key_of_ok env hc hpre (i + 1) os]

theorem buildEntries_map_ts_of_ok (env : S3Env) (hc : env.clientOk = true)
    (hpre : ∀ k, env.presignFails k = false) :
    ∀ (i : Nat) (os : List S3Obj),
      (buildEntries env i os).map (fun e => e.timestamp) =
        os.map (fun o => o.lastModified)
  | _, [] => rfl
  | i, o :: os => by
    have hurl : get_presigned_url env o.key = some
        ("https://s3.presigned/" ++ o.key ++ "?expires=" ++ toString 3600) := by
      simp [get_presigned_url, hc, hpre o.key]
    simp only [buildEntries, hurl, List.map_cons]
    rw [buildEntries_map_ts_of_ok env hc hpre (i + 1) os]

theorem buildEntries_map_ts_sublist (env : S3Env) :
    ∀ (i : Nat) (os : List S3Obj),
      ((buildEntries env i os).map (fun e => e.timestamp)).Sublist
        (os.map (fun o => o.lastModified))
  | _, [] => List.Sublist.refl _
  | i, o :: os => by
    cases hurl : get_presigned_url env o.key with
    | none =>
        simp only [buildEntries, hurl, List.map_cons]
        exact (buildEntries_map_ts_sublist env (i + 1) os).cons _
    | some url =>
        simp only [buildEntries, hurl, List.map_cons]
        exact (buildEntries_map_ts_sublist env (i + 1) os).cons₂ _

/-- C6, amended: for every environment and every set of stored objects the
display is sorted by `last_modified` non-increasing (newest first) — the
returned entries are presign-surviving members, in order, of the
descending-sorted page, whatever that page holds.  "Exactly the N newest",
however, only holds when the camera's namespace fits in one display page
(at most `min 100 pageCap` objects; see the counterexample for a larger
namespace) and every presign succeeds: then the keys are exactly the first
`N` of the namespace sorted newest first and there are
`min N (size of namespace)` entries. -/
theorem spec_c6_display_newest_first (env : S3Env) (bucket : Bucket)
    (cam : String) (N : Nat) :
    ((list_camera_images env bucket cam N).map (fun e => e.timestamp)).Pairwise
      (fun a b => b ≤ a) ∧
    (env.clientOk = true → env.listFails = false →
      (∀ k, env.presignFails k = false) →
      (bucket.filter (fun o => keyMatches (cam ++ "/") o.key)).length ≤
        min 100 env.pageCap →
      (list_camera_images env bucket cam N).map (fun e => e.key) =
        ((sortDescLM (bucket.filter (fun o => keyMatches (cam ++ "/") o.key))).take
          N).map (fun o => o.key) ∧
      (list_camera_images env bucket cam N).length =
        min N (bucket.filter (fun o => keyMatches (cam ++ "/") o.key)).length) := by
  constructor
  · by_cases hc : env.clientOk = true
    · by_cases hl : env.listFails = true
      · simp [list_camera_images, hc, hl]
      · have hl' : env.listFails = false := by simpa using hl
        by_cases hemp :
            (listObjectsV2 env bucket (cam ++ "/") (some 100)).isEmpty = true
        · simp [list_camera_images, hc, hl', hemp]
        · have hemp' :
              (listObjectsV2 env bucket (cam ++ "/") (some 100)).isEmpty = false := by
            simpa using hemp
          have hres : list_camera_images env bucket cam N =
              buildEntries env 0
                ((sortDescLM (listObjectsV2 env bucket (cam ++ "/") (some 100))).take N) := by
            simp only [list_camera_images, hc, hl', hemp', Bool.not_true,
              Bool.false_eq_true, if_false, if_neg, not_false_iff]
          rw [hres]
          have hpw : (((sortDescLM (listObjectsV2 env bucket (cam ++ "/")
              (some 100))).take N).map (fun o => o.lastModified)).Pairwise
              (fun a b => b ≤ a) :=
            List.pairwise_map.mpr
              ((sortDescLM_pairwise _).sublist (List.take_sublist _ _))
          exact hpw.sublist (buildEntries_map_ts_sublist env 0 _)
    · have hc' : env.clientOk = false := by simpa using hc
      simp [list_camera_images, hc']
  · intro hc hl hpre hfit
    have hpage := listObjectsV2_display_eq env bucket (cam ++ "/") hfit
    by_cases hemp :
        (bucket.filter (fun o => keyMatches (cam ++ "/") o.key)).isEmpty = true
    · have hnil : bucket.filter (fun o => keyMatches (cam ++ "/") o.key) = [] :=
        List.isEmpty_iff.mp hemp
      simp [list_camera_images, hc, hl, hpage, hnil, sortDescLM, sortBy]
    · have hemp' :
          (bucket.filter (fun o => keyMatches (cam ++ "/") o.key)).isEmpty = false := by
        simpa using hemp
      have hres : list_camera_images env bucket cam N =
          buildEntries env 0
            ((sortDescLM (bucket.filter (fun o => keyMatches (cam ++ "/") o.key))).take N) := by
        simp only [list_camera_images, hc, hl, hpage, hemp', Bool.not_true,
          Bool.false_eq_true, if_false, if_neg, not_false_iff]
      have hkeys := buildEntries_map_key_of_ok env hc hpre 0
        ((sortDescLM (bucket.filter (fun o => keyMatches (cam ++ "/") o.key))).take N)
      refine ⟨?_, ?_⟩
      · rw [hres, hkeys]
      · have hlen := congrArg List.length (hres ▸ hkeys)
        simp only [List.length_map] at hlen
        rw [hlen, List.length_take]
        have := (sortBy_perm
          (fun a b => b.lastModified ≤ a.lastModified)
          (bucket.filter (fun o => keyMatches (cam ++ "/") o.key))).length_eq
        simp only [sortDescLM] at this ⊢
        rw [this]

theorem spec_c6_display_newest_first_witness :
    ((list_camera_images (mkEnv 1000 5)
      [{ key := "c/1.jpg", size := 1, lastModified := 0 },
       { key := "c/2.jpg", size := 1, lastModified := 3 }] "c" 6).map
        (fun e => e.timestamp)).Pairwise (fun a b => b ≤ a) ∧
    (list_camera_images (mkEnv 1000 5)
      [{ key := "c/1.jpg", size := 1, lastModified := 0 },
       { key := "c/2.jpg", size := 1, lastModified := 3 }] "c" 6).map
        (fun e => e.key) =
      ((sortDescLM (([{ key := "c/1.jpg", size := 1, lastModified := 0 },
        { key := "c/2.jpg", size := 1, lastModified := 3 }] : Bucket).filter
          (fun o => keyMatches ("c" ++ "/") o.key))).take 6).map
        (fun o => o.key) :=
  ⟨(spec_c6_display_newest_first (mkEnv 1000 5)
    [{ key := "c/1.jpg", size := 1, lastModified := 0 },
     { key := "c/2.jpg", size := 1, lastModified := 3 }] "c" 6).1,
   ((spec_c6_display_newest_first (mkEnv 1000 5)
    [{ key := "c/1.jpg", size := 1, lastModified := 0 },
     { key := "c/2.jpg", size := 1, lastModified := 3 }] "c" 6).2
    rfl rfl (fun _ => rfl) (by decide)).1⟩

set_option maxRecDepth 10000 in
/-- C6, counterexample to the claim as frozen ("for every set of stored
objects"): a namespace of 101 objects.  The newest object `c/z` lies beyond
the 100-key page, so the six entries the display returns are not the six
newest of the namespace. -/
theorem spec_c6_display_misses_newest :
    6 < (exBucketBig.filter (fun o => keyMatches "c/" o.key)).length ∧
    (list_camera_images (mkEnv 1000 5) exBucketBig "c").map (fun e => e.key) ≠
      ((sortDescLM (exBucketBig.filter (fun o => keyMatches "c/" o.key))).take
        6).map (fun o => o.key) := by
  decide

theorem runDeletes_attempted_prefix (env : S3Env) :
    ∀ (td : List S3Obj) (b : Bucket),
      (runDeletes env b td).2.1 <+: td.map (fun o => o.key)
  | [], _ => List.nil_prefix
  | d :: ds, b => by
    unfold runDeletes
    by_cases hf : env.deleteFails d.key = true
    · simp only [hf, if_pos]
      exact ⟨ds.map (fun o => o.key), by simp⟩
    · simp only [hf, if_neg, Bool.not_eq_true, if_false]
      rcases runDeletes_attempted_prefix env ds (deleteKey d.key b) with ⟨t, ht⟩
      exact ⟨t, by simp [← ht]⟩

theorem runDeletes_err_getLast (env : S3Env) :
    ∀ (td : List S3Obj) (b : Bucket) (k : String),
      (runDeletes env b td).2.2 = some k →
      (runDeletes env b td).2.1.getLast? = some k
  | [], _, _, h => by simp [runDeletes] at h
  | d :: ds, b, k, h => by
    unfold runDeletes at h ⊢
    by_cases hf : env.deleteFails d.key = true
    · simp only [hf, if_pos] at h ⊢
      simp only [Option.some_inj] at h
      simp [h]
    · simp only [hf, if_neg, Bool.not_eq_true, if_false] at h ⊢
      have ih := runDeletes_err_getLast env ds (deleteKey d.key b) k h
      cases hcase : (runDeletes env (deleteKey d.key b) ds).2.1 with
      | nil => rw [hcase] at ih; simp at ih
      | cons y ys =>
          rw [hcase] at ih
          simp only [hcase, List.getLast?_cons_cons]
          exact ih

theorem runDeletes_no_err_all (env : S3Env) :
    ∀ (td : List S3Obj) (b : Bucket),
      (runDeletes env b td).2.2 = none →
      (runDeletes env b td).2.1 = td.map (fun o => o.key)
  | [], _, _ => rfl
  | d :: ds, b, h => by
    unfold runDeletes at h ⊢
    by_cases hf : env.deleteFails d.key = true
    · simp only [hf, if_pos] at h
      exact absurd h (Option.some_ne_none _)
    · simp only [hf, if_neg, Bool.not_eq_true, if_false] at h ⊢
      rw [List.map_cons, runDeletes_no_err_all env ds (deleteKey d.key b) h]

/-- C5, amended: the delete loop runs inside the surrounding `try`, so the
first failing delete raises out of the loop and ends the pass (no
accumulation of failures).  What holds of the loop: the attempted keys are
always an initial segment of the candidate keys; when a delete fails, the
failing key is the last one attempted (nothing after it is attempted); and
only when no delete fails is every candidate attempted. -/
theorem spec_c5_delete_failure_aborts (env : S3Env) (td : List S3Obj)
    (b : Bucket) :
    (runDeletes env b td).2.1 <+: td.map (fun o => o.key) ∧
    (∀ k, (runDeletes env b td).2.2 = some k →
      (runDeletes env b td).2.1.getLast? = some k) ∧
    ((runDeletes env b td).2.2 = none →
      (runDeletes env b td).2.1 = td.map (fun o => o.key)) :=
  ⟨ runDeletes_attempted_prefix env td b,
   fun k hk => runDeletes_err_getLast env td b k hk,
   fun h => runDeletes_no_err_all env td b h⟩

theorem spec_c5_delete_failure_aborts_witness :
    (runDeletes envDeleteAFails exBucketTwo
      [{ key := "a/1.jpg", size := 1024 * 1024 * 1024, lastModified := 0 },
       { key := "b/1.jpg", size := 1024 * 1024 * 1024, lastModified := 1 }]).2.2 =
      some "a/1.jpg" ∧
    (runDeletes envDeleteAFails exBucketTwo
      [{ key := "a/1.jpg", size := 1024 * 1024 * 1024, lastModified := 0 },
       { key := "b/1.jpg", size := 1024 * 1024 * 1024, lastModified := 1 }]).2.1.getLast? =
      some "a/1.jpg" :=
  ⟨by decide,
   (spec_c5_delete_failure_aborts envDeleteAFails
      [{ key := "a/1.jpg", size := 1024 * 1024 * 1024, lastModified := 0 },
       { key := "b/1.jpg", size := 1024 * 1024 * 1024, lastModified := 1 }]
      exBucketTwo).2.1 "a/1.jpg" (by decide)⟩

/-- C5, counterexample to the claim as frozen: both stored objects are
eviction candidates for the incoming gigabyte (first conjunct); the delete
of the older `a/1.jpg` fails, and the pass stops — no delete is attempted
for the later candidate `b/1.jpg`, and no failure list is accumulated
beyond the single raising key. -/
theorem spec_c5_failure_not_isolated :
    selectEvict ((maxSizeBytes 1 : Int) - (1024 * 1024 * 1024 : Int))
      ((totalSize (sortAscLM exBucketTwo) : Int)) (sortAscLM exBucketTwo) =
      [{ key := "a/1.jpg", size := 1024 * 1024 * 1024, lastModified := 0 },
       { key := "b/1.jpg", size := 1024 * 1024 * 1024, lastModified := 1 }] ∧
    (cleanup_storage envDeleteAFails exBucketTwo (1024 * 1024 * 1024)).2.1 =
      ["a/1.jpg"] ∧
    (cleanup_storage envDeleteAFails exBucketTwo (1024 * 1024 * 1024)).2.2 =
      some "a/1.jpg" := by
  decide

/-- C7. `delete_old_images` is only a dangling import in `app.py`; the
operation is modelled from the spec (see its doc comment).  For a positive
`keep_count`, distinct keys and no delete failure, the camera's namespace
afterwards is exactly the `K` most recent objects (the ascending recency
order with its oldest `total - K` entries removed), hence holds at most `K`
objects. -/
theorem spec_c7_enforce_count (env : S3Env) (bucket : Bucket) (cam : String)
    (K : Nat) (hdel : ∀ k, env.deleteFails k = false)
    (hnd : (bucket.map (fun o => o.key)).Nodup) (hK : 0 < K) :
    List.Perm
      ((delete_old_images env bucket cam K).1.filter
        (fun o => keyMatches (cam ++ "/") o.key))
      ((sortAscLM (bucket.filter (fun o => keyMatches (cam ++ "/") o.key))).drop
        ((bucket.filter (fun o => keyMatches (cam ++ "/") o.key)).length - K)) ∧
    ((delete_old_images env bucket cam K).1.filter
      (fun o => keyMatches (cam ++ "/") o.key)).length ≤ K ∧
    (delete_old_images env bucket cam K).2.2 = none := by
  by_cases hle :
      (bucket.filter (fun o => keyMatches (cam ++ "/") o.key)).length ≤ K
  · have hres : delete_old_images env bucket cam K = (bucket, [], none) := by
      simp only [delete_old_images, if_pos hle]
    have hzero :
        (bucket.filter (fun o => keyMatches (cam ++ "/") o.key)).length - K = 0 :=
      Nat.sub_eq_zero_of_le hle
    rw [hres, hzero]
    simp only [List.drop_zero]
    refine ⟨(sortBy_perm _ _).symm, hle, trivial⟩
  · have hres : delete_old_images env bucket cam K =
        runDeletes env bucket
          ((sortAscLM (bucket.filter (fun o => keyMatches (cam ++ "/") o.key))).take
            ((bucket.filter (fun o => keyMatches (cam ++ "/") o.key)).length - K)) := by
      simp only [delete_old_images, if_neg hle]
    have hsplit :
        sortAscLM (bucket.filter (fun o => keyMatches (cam ++ "/") o.key)) =
        (sortAscLM (bucket.filter (fun o => keyMatches (cam ++ "/") o.key))).take
          ((bucket.filter (fun o => keyMatches (cam ++ "/") o.key)).length - K) ++
        (sortAscLM (bucket.filter (fun o => keyMatches (cam ++ "/") o.key))).drop
          ((bucket.filter (fun o => keyMatches (cam ++ "/") o.key)).length - K) :=
      (List.take_append_drop _ _).symm
    have hperm : List.Perm bucket
        ((sortAscLM (bucket.filter (fun o => keyMatches (cam ++ "/") o.key))).take
          ((bucket.filter (fun o => keyMatches (cam ++ "/") o.key)).length - K) ++
         ((sortAscLM (bucket.filter (fun o => keyMatches (cam ++ "/") o.key))).drop
            ((bucket.filter (fun o => keyMatches (cam ++ "/") o.key)).length - K) ++
          bucket.filter (fun o => !keyMatches (cam ++ "/") o.key))) := by
      have h1 := (List.filter_append_perm
        (fun o => keyMatches (cam ++ "/") o.key) bucket).symm
      have h2 : List.Perm
          (bucket.filter (fun o => keyMatches (cam ++ "/") o.key))
          (sortAscLM (bucket.filter (fun o => keyMatches (cam ++ "/") o.key))) :=
        (sortBy_perm _ _).symm
      refine h1.trans ?_
      refine (h2.append_right _).trans ?_
      conv_lhs => rw [hsplit]
      rw [List.append_assoc]
    obtain ⟨hpermres, _, herr⟩ := runDeletes_ok hdel _ bucket _ hperm hnd
    rw [hres]
    have hfilt := hpermres.filter (fun o => keyMatches (cam ++ "/") o.key)
    rw [List.filter_append] at hfilt
    have hfc : (bucket.filter (fun o => !keyMatches (cam ++ "/") o.key)).filter
        (fun o => keyMatches (cam ++ "/") o.key) = [] := by
      refine List.filter_eq_nil_iff.mpr ?_
      intro o ho
      have := (List.mem_filter.mp ho).2
      simp only [Bool.not_eq_true'] at this
      simp [this]
    have hfd : ((sortAscLM (bucket.filter (fun o => keyMatches (cam ++ "/") o.key))).drop
          ((bucket.filter (fun o => keyMatches (cam ++ "/") o.key)).length - K)).filter
        (fun o => keyMatches (cam ++ "/") o.key) =
        (sortAscLM (bucket.filter (fun o => keyMatches (cam ++ "/") o.key))).drop
          ((bucket.filter (fun o => keyMatches (cam ++ "/") o.key)).length - K) := by
      refine List.filter_eq_self.mpr ?_
      intro o ho
      have h3 : o ∈ sortAscLM (bucket.filter (fun o => keyMatches (cam ++ "/") o.key)) :=
        (List.drop_sublist _ _).subset ho
      have h4 : o ∈ bucket.filter (fun o => keyMatches (cam ++ "/") o.key) :=
        (sortBy_perm _ _).mem_iff.mp h3
      exact (List.mem_filter.mp h4).2
    rw [hfc, hfd, List.append_nil] at hfilt
    refine ⟨hfilt, ?_, herr⟩
    have hlen := hfilt.length_eq
    rw [hlen, List.length_drop]
    have hslen : (sortAscLM (bucket.filter (fun o => keyMatches (cam ++ "/") o.key))).length =
        (bucket.filter (fun o => keyMatches (cam ++ "/") o.key)).length :=
      (sortBy_perm _ _).length_eq
    rw [hslen]
    omega

theorem spec_c7_enforce_count_witness :
    ((delete_old_images (mkEnv 10 5)
      [{ key := "c/1.jpg", size := 1, lastModified := 0 },
       { key := "c/2.jpg", size := 1, lastModified := 1 },
       { key := "c/3.jpg", size := 1, lastModified := 2 }] "c" 2).1.filter
      (fun o => keyMatches ("c" ++ "/") o.key)).length ≤ 2 :=
  (spec_c7_enforce_count (mkEnv 10 5)
    [{ key := "c/1.jpg", size := 1, lastModified := 0 },
     { key := "c/2.jpg", size := 1, lastModified := 1 },
     { key := "c/3.jpg", size := 1, lastModified := 2 }] "c" 2
    (fun _ => rfl) (by decide) (by decide)).2.1

theorem findCamera_update_self :
    ∀ (db : DB) (cid : String) (r : CameraRec),
      (findCamera db cid).isSome → r.camera_id = cid →
      findCamera (updateCamera db cid r) cid = some r
  | [], _, _, h, _ => by simp [findCamera] at h
  | c :: cs, cid, r, h, hr => by
    by_cases hc : (c.camera_id == cid) = true
    · simp only [findCamera, updateCamera, List.map_cons, hc, if_pos]
      rw [List.find?_cons_of_pos]
      simp [hr]
    · have hc' : (c.camera_id == cid) = false := by simpa using hc
      simp only [findCamera, updateCamera, List.map_cons, hc', Bool.false_eq_true,
        if_false, if_neg, not_false_iff]
      rw [List.find?_cons_of_neg _ (by simp [hc'])]
      have htail : (findCamera cs cid).isSome := by
        simp only [findCamera] at h
        rw [List.find?_cons_of_neg _ (by simp [hc'])] at h
        exact h
      exact findCamera_update_self cs cid r htail hr

theorem findCamera_append_new :
    ∀ (db : DB) (cid : String) (rec : CameraRec),
      findCamera db cid = none → rec.camera_id = cid →
      findCamera (db ++ [rec]) cid = some rec
  | [], cid, rec, _, hr => by
    simp only [findCamera, List.nil_append]
    rw [List.find?_cons_of_pos]
    simp [hr]
  | c :: cs, cid, rec, h, hr => by
    have hc : (c.camera_id == cid) = false := by
      by_contra hcc
      have hcc' : (c.camera_id == cid) = true := by simpa using hcc
      simp [findCamera, List.find?, hcc'] at h
    have htail : findCamera cs cid = none := by
      simp only [findCamera] at h
      rw [List.find?_cons_of_neg _ (by simp [hc])] at h
      exact h
    simp only [findCamera, List.cons_append]
    rw [List.find?_cons_of_neg _ (by simp [hc])]
    exact findCamera_append_new cs cid rec htail hr

theorem upload_image_db_state (env : S3Env) (db : DB) (bucket : Bucket)
    (cid : String) (content : List Nat) (ip : Option String) (now : Nat)
    (ts : String) :
    ∃ r : CameraRec,
      findCamera (upload_image env db bucket cid content ip now ts).2.1 cid =
        some r ∧
      r.last_seen = some now ∧
      (findCamera db cid = none → r.user_id = 1 ∧ r.camera_id = cid ∧
        r.name = "Camera " ++ cid ∧ r.ip_address = ip) := by
  rcases hfind : findCamera db cid with _ | cam
  · have hf1 : findCamera
        (db ++ [{ camera_id := cid, name := "Camera " ++ cid, user_id := 1,
                  ip_address := ip, last_seen := none }]) cid =
        some { camera_id := cid, name := "Camera " ++ cid, user_id := 1,
               ip_address := ip, last_seen := none } :=
      findCamera_append_new db cid _ hfind rfl
    have hf2 := findCamera_update_self
      (db ++ [{ camera_id := cid, name := "Camera " ++ cid, user_id := 1,
                ip_address := ip, last_seen := none }]) cid
      { camera_id := cid, name := "Camera " ++ cid, user_id := 1,
        ip_address := ip, last_seen := some now }
      (by rw [hf1]; rfl) rfl
    refine ⟨{ camera_id := cid, name := "Camera " ++ cid, user_id := 1,
              ip_address := ip, last_seen := some now }, ?_, rfl,
            fun _ => ⟨rfl, rfl, rfl, rfl⟩⟩
    simp only [upload_image, hfind, hf1]
    cases h : (upload_to_s3 env now bucket content
        (cid ++ "/" ++ ts ++ ".jpg")).1 <;> simp [h, hf2]
  · have hcamid : cam.camera_id = cid := by
      have := List.find?_some hfind
      simpa using this
    by_cases hip : (cam.ip_address != ip) = true
    · have hf1 : findCamera (updateCamera db cid { cam with ip_address := ip }) cid =
          some { cam with ip_address := ip } :=
        findCamera_update_self db cid _ (by rw [hfind]; rfl) hcamid
      have hf2 := findCamera_update_self
        (updateCamera db cid { cam with ip_address := ip }) cid
        { cam with ip_address := ip, last_seen := some now }
        (by rw [hf1]; rfl) hcamid
      refine ⟨{ cam with ip_address := ip, last_seen := some now }, ?_, rfl,
              fun hnone => by simp at hnone⟩
      simp only [upload_image, hfind, hip, if_pos, hf1]
      cases h : (upload_to_s3 env now bucket content
          (cid ++ "/" ++ ts ++ ".jpg")).1 <;> simp [h, hf2]
    · have hip' : (cam.ip_address != ip) = false := by simpa using hip
      have hf2 := findCamera_update_self db cid { cam with last_seen := some now }
        (by rw [hfind]; rfl) hcamid
      refine ⟨{ cam with last_seen := some now }, ?_, rfl,
              fun hnone => by simp at hnone⟩
      simp only [upload_image, hfind, hip', Bool.false_eq_true, if_false, if_neg,
        not_false_iff]
      cases h : (upload_to_s3 env now bucket content
          (cid ++ "/" ++ ts ++ ".jpg")).1 <;> simp [h, hf2]

theorem upload_to_s3_of_put_fails (env : S3Env) (now : Nat) (bucket : Bucket)
    (content : List Nat) (filename : String) (hp : env.putFails = true) :
    (upload_to_s3 env now bucket content filename).1 = false := by
  unfold upload_to_s3
  by_cases hc : env.clientOk
  · simp [hc, hp]
  · simp [hc]

theorem insertByKey_perm (x : S3Obj) :
    ∀ l : Bucket, List.Perm (insertByKey x l) (x :: l)
  | [] => List.Perm.refl _
  | y :: ys => by
    unfold insertByKey
    by_cases h : (x.key ≤ y.key)
    · simp [h]
    · simp only [h, if_neg, if_false]
      exact ((insertByKey_perm x ys).cons y).trans (List.Perm.swap x y ys)

theorem mem_putObject_self (k : String) (sz now : Nat) (b : Bucket) :
    ({ key := k, size := sz, lastModified := now } : S3Obj) ∈
      putObject k sz now b :=
  (insertByKey_perm _ _).mem_iff.mpr (List.mem_cons_self _ _)

theorem upload_to_s3_ok (env : S3Env) (now : Nat) (bucket : Bucket)
    (content : List Nat) (filename : String)
    (hc : env.clientOk = true) (hp : env.putFails = false) :
    (upload_to_s3 env now bucket content filename).1 = true ∧
    (upload_to_s3 env now bucket content filename).2.1 =
      putObject filename content.length now
        (enforce_budget env bucket content.length).1 := by
  unfold upload_to_s3
  simp [hc, hp]

/-- C9. The `/upload` route mutates the relational store and commits before
attempting the S3 put, so a put failure is not rolled back: the caller gets
the 500 error response, yet the committed database still carries the
camera's refreshed `last_seen = now`, and, when the camera id was unknown,
a freshly created record for it owned by user id 1 and named
`"Camera <id>"`. -/
theorem spec_c9_db_persists_on_put_failure (env : S3Env) (db : DB)
    (bucket : Bucket) (cid : String) (content : List Nat) (ip : Option String)
    (now : Nat) (ts : String) (hp : env.putFails = true) :
    (upload_image env db bucket cid content ip now ts).1.httpCode = 500 ∧
    (upload_image env db bucket cid content ip now ts).1.status = "error" ∧
    ∃ r : CameraRec,
      findCamera (upload_image env db bucket cid content ip now ts).2.1 cid =
        some r ∧
      r.last_seen = some now ∧
      (findCamera db cid = none → r.user_id = 1 ∧ r.camera_id = cid) := by
  have hfail := upload_to_s3_of_put_fails env now bucket content
    (cid ++ "/" ++ ts ++ ".jpg") hp
  obtain ⟨r, hr1, hr2, hr3⟩ :=
    upload_image_db_state env db bucket cid content ip now ts
  refine ⟨?_, ?_, r, hr1, hr2, fun h => ⟨(hr3 h).1, (hr3 h).2.1⟩⟩
  · simp only [upload_image, hfail, Bool.false_eq_true, if_false, if_neg,
      not_false_iff]
  · simp only [upload_image, hfail, Bool.false_eq_true, if_false, if_neg,
      not_false_iff]

theorem spec_c9_db_persists_on_put_failure_witness :
    (upload_image envPutFails [] [] "cam1" [0] (some "1.2.3.4") 7
      "20250101_000000").1.httpCode = 500 ∧
    (upload_image envPutFails [] [] "cam1" [0] (some "1.2.3.4") 7
      "20250101_000000").1.status = "error" ∧
    ∃ r : CameraRec,
      findCamera (upload_image envPutFails [] [] "cam1" [0] (some "1.2.3.4") 7
        "20250101_000000").2.1 "cam1" = some r ∧
      r.last_seen = some 7 ∧
      (findCamera [] "cam1" = none → r.user_id = 1 ∧ r.camera_id = "cam1") :=
  spec_c9_db_persists_on_put_failure envPutFails [] [] "cam1" [0]
    (some "1.2.3.4") 7 "20250101_000000" rfl

/-- C8, amended: the route performs no validation of `camera_id` at all.
An upload with the empty camera id is processed like any other: it reports
success, the image is stored under the key `"/<timestamp>.jpg"` (empty
prefix), and a camera record whose `camera_id` is the empty string is
committed with `last_seen` refreshed. -/
theorem spec_c8_no_empty_camera_id_validation (env : S3Env) (db : DB)
    (bucket : Bucket) (content : List Nat) (ip : Option String) (now : Nat)
    (ts : String) (hc : env.clientOk = true) (hp : env.putFails = false) :
    (upload_image env db bucket "" content ip now ts).1.status = "success" ∧
    ({ key := "" ++ "/" ++ ts ++ ".jpg", size := content.length,
       lastModified := now } : S3Obj) ∈
      (upload_image env db bucket "" content ip now ts).2.2 ∧
    ∃ r : CameraRec,
      findCamera (upload_image env db bucket "" content ip now ts).2.1 "" =
        some r ∧ r.last_seen = some now := by
  obtain ⟨hok, hbkt⟩ := upload_to_s3_ok env now bucket content
    ("" ++ "/" ++ ts ++ ".jpg") hc hp
  obtain ⟨r, hr1, hr2, _⟩ :=
    upload_image_db_state env db bucket "" content ip now ts
  refine ⟨?_, ?_, r, hr1, hr2⟩
  · simp only [upload_image, hok, if_pos]
  · simp only [upload_image, hok, if_pos, hbkt]
    exact mem_putObject_self _ _ _ _

theorem spec_c8_no_empty_camera_id_validation_witness :
    (upload_image (mkEnv 10 5) [] [] "" [0] (some "1.2.3.4") 7
      "20250101_000000").1.status = "success" ∧
    ({ key := "" ++ "/" ++ "20250101_000000" ++ ".jpg", size := [0].length,
       lastModified := 7 } : S3Obj) ∈
      (upload_image (mkEnv 10 5) [] [] "" [0] (some "1.2.3.4") 7
        "20250101_000000").2.2 ∧
    ∃ r : CameraRec,
      findCamera (upload_image (mkEnv 10 5) [] [] "" [0] (some "1.2.3.4") 7
        "20250101_000000").2.1 "" = some r ∧ r.last_seen = some 7 :=
  spec_c8_no_empty_camera_id_validation (mkEnv 10 5) [] [] [0]
    (some "1.2.3.4") 7 "20250101_000000" rfl rfl

/-- C8, counterexample to the claim as frozen: an upload with
`camera_id = ""` is not rejected — it answers success — and it does store
an object (under the degenerate key `/20250101_000000.jpg`), and commits a
camera record with the empty id. -/
theorem spec_c8_empty_camera_id_accepted :
    (upload_image (mkEnv 10 5) [] [] "" [0] (some "1.2.3.4") 7
      "20250101_000000").1.status = "success" ∧
    (upload_image (mkEnv 10 5) [] [] "" [0] (some "1.2.3.4") 7
      "20250101_000000").2.2 =
      [{ key := "/20250101_000000.jpg", size := 1, lastModified := 7 }] ∧
    (upload_image (mkEnv 10 5) [] [] "" [0] (some "1.2.3.4") 7
      "20250101_000000").2.1 =
      [{ camera_id := "", name := "Camera ", user_id := 1,
         ip_address := some "1.2.3.4", last_seen := some 7 }] := by
  decide

theorem buildEntries_keys_filter (env : S3Env) :
    ∀ (i : Nat) (os : List S3Obj),
      (buildEntries env i os).map (fun e => e.key) =
        (os.filter (fun o => (get_presigned_url env o.key).isSome)).map
          (fun o => o.key)
  | _, [] => rfl
  | i, o :: os => by
    cases hurl : get_presigned_url env o.key with
    | none =>
        simp only [buildEntries, hurl, List.filter_cons, Option.isSome_none,
          Bool.false_eq_true, if_false, if_neg, not_false_iff]
        exact buildEntries_keys_filter env (i + 1) os
    | some url =>
        simp only [buildEntries, hurl, List.filter_cons, Option.isSome_some,
          if_pos, List.map_cons]
        rw [buildEntries_keys_filter env (i + 1) os]

/-- C10. Every remote failure on the read path is caught inside the
function that made the call: an uninitialised client or a failed list call
makes `list_camera_images` answer the empty list, an uninitialised client
or failed presign makes `get_presigned_url` answer `none` (the embedded
functions are total, so no exception reaches the caller), and the entries
returned are exactly the display slice minus the objects whose presign
failed, in order. -/
theorem spec_c10_read_path_total (env : S3Env) (bucket : Bucket)
    (cam : String) (N : Nat) :
    (env.clientOk = false → list_camera_images env bucket cam N = [] ∧
      ∀ f, get_presigned_url env f = none) ∧
    (env.listFails = true → list_camera_images env bucket cam N = []) ∧
    (∀ f, env.presignFails f = true → get_presigned_url env f = none) ∧
    (env.clientOk = true → env.listFails = false →
      (list_camera_images env bucket cam N).map (fun e => e.key) =
        (((sortDescLM (listObjectsV2 env bucket (cam ++ "/") (some 100))).take
          N).filter (fun o => (get_presigned_url env o.key).isSome)).map
          (fun o => o.key)) := by
  refine ⟨?_, ?_, ?_, ?_⟩
  · intro h
    exact ⟨by simp [list_camera_images, h],
           fun f => by simp [get_presigned_url, h]⟩
  · intro h
    by_cases hc : env.clientOk
    · simp [list_camera_images, hc, h]
    · simp [list_camera_images, hc]
  · intro f hf
    by_cases hc : env.clientOk
    · simp [get_presigned_url, hc, hf]
    · simp [get_presigned_url, hc]
  · intro hc hl
    by_cases hemp : (listObjectsV2 env bucket (cam ++ "/") (some 100)).isEmpty = true
    · have hnil := List.isEmpty_iff.mp hemp
      simp [list_camera_images, hc, hl, hemp, hnil, sortDescLM, sortBy]
    · have hemp' : (listObjectsV2 env bucket (cam ++ "/") (some 100)).isEmpty = false := by
        simpa using hemp
      have hres : list_camera_images env bucket cam N =
          buildEntries env 0
            ((sortDescLM (listObjectsV2 env bucket (cam ++ "/") (some 100))).take N) := by
        simp only [list_camera_images, hc, hl, hemp', Bool.not_true,
          Bool.false_eq_true, if_false, if_neg, not_false_iff]
      rw [hres]
      exact buildEntries_keys_filter env 0 _

theorem spec_c10_read_path_total_witness :
    list_camera_images { mkEnv 10 5 with listFails := true }
      [{ key := "c/1.jpg", size := 1, lastModified := 0 }] "c" 6 = [] :=
  (spec_c10_read_path_total { mkEnv 10 5 with listFails := true }
    [{ key := "c/1.jpg", size := 1, lastModified := 0 }] "c" 6).2.1 rfl
